import Mathlib

/-!
Verification development for the trade-to-price-point alignment and the
interactive chart of the tBot2026 dashboard.

Alignment is embedded from `fetchPriceHistory` in
src/frontend/app/portfolio/page.tsx (lines 114-141): for every fetched price
record the code filters the trade list by a day-distance test and then writes
each matching trade into the buy or the sell slot of the chart point,
overwriting any earlier value of the slot.

Chart geometry is embedded from `InteractiveChart` in
src/frontend/components/InteractiveChart.tsx: empty-series guard (line 15),
min/max/range of the close series (lines 19-21), the index-to-x mapping
`getX` (line 30), the trend flag `isUp` (line 35), the Y-axis tick loop
(lines 54 and 131-133) and the pointer-to-index resolver
`getIndexFromPosition` (lines 57-73).

Modelling conventions: JavaScript epoch-millisecond instants are `Int`;
a timestamp that fails to parse (an Invalid Date, whose numeric value is NaN)
is `none`, and every numeric comparison against it is `false`, as in
JavaScript. Prices and geometry run over `Rat`. Local time is modelled with a
fixed zero UTC offset, so `setHours(0,0,0,0)` is flooring to a multiple of
86400000 ms.
-/

namespace TBot

/-- One trade record of a portfolio, as consumed by `fetchPriceHistory`.
The `timestamp` field holds the parse of the ISO string: `some t` is the
epoch-millisecond instant, `none` models an invalid date. -/
structure Trade where
  id : String
  symbol : String
  action : String
  price : ℚ
  quantity : ℚ
  timestamp : Option ℤ
deriving DecidableEq

/-- One record of the fetched price series; only the fields the alignment
reads. `date` is the parsed `item.date`, `close` is `item.close`. -/
structure PriceItem where
  date : Option ℤ
  close : ℚ
deriving DecidableEq

/-- Model of `new Date(x).setHours(0,0,0,0)` (page.tsx lines 123-124): the
epoch milliseconds of the local midnight of the day containing `t`, under the
fixed zero-offset model of local time. -/
def dayFloor (t : ℤ) : ℤ := 86400000 * Int.fdiv t 86400000

/-- The filter predicate of page.tsx lines 122-126:
`Math.abs(tradeDate - itemDate) < 86400000` on the day-floored instants.
If either parse failed the JavaScript comparison is against NaN and yields
`false`. -/
def matchesDay (t : Trade) (item : PriceItem) : Bool :=
  match t.timestamp, item.date with
  | some a, some b => decide ((dayFloor a - dayFloor b).natAbs < 86400000)
  | _, _ => false

/-- One merged chart point (the `dataPoint` object of page.tsx lines
116-120): the parsed date, the close price, and the optional buy and sell
slots, each a (price, quantity) pair. -/
structure AlignedPoint where
  timestamp : Option ℤ
  price : ℚ
  buy : Option (ℚ × ℚ)
  sell : Option (ℚ × ℚ)
deriving DecidableEq

/-- A chart point before any trade is written (page.tsx lines 116-120). -/
def initPoint (item : PriceItem) : AlignedPoint :=
  ⟨item.date, item.close, none, none⟩

/-- Body of the `forEach` of page.tsx lines 129-137: a BUY trade writes the
buy slot, any other action writes the sell slot, overwriting the slot. -/
def writeTrade (pt : AlignedPoint) (t : Trade) : AlignedPoint :=
  if t.action = "BUY" then { pt with buy := some (t.price, t.quantity) }
  else { pt with sell := some (t.price, t.quantity) }

/-- The `forEach` loop over the matching trades, left to right. -/
def applyTrades (pt : AlignedPoint) (ts : List Trade) : AlignedPoint :=
  ts.foldl writeTrade pt

/-- One iteration of the `data.map` of page.tsx line 114: build the point for
one price record and write every trade passing the day filter into it. The
`if (tradesOnDate.length > 0)` wrapper of line 128 is a no-op (a `forEach`
over an empty list does nothing) and is dropped. -/
def alignPoint (trades : List Trade) (item : PriceItem) : AlignedPoint :=
  applyTrades (initPoint item) (trades.filter fun t => matchesDay t item)

/-- The whole `chartData` computation of page.tsx lines 114-141. -/
def align (prices : List PriceItem) (trades : List Trade) : List AlignedPoint :=
  prices.map (alignPoint trades)

/-- Number of trade markers a chart point carries: one per filled slot. -/
def annCount (pt : AlignedPoint) : ℕ :=
  (if pt.buy.isSome then 1 else 0) + (if pt.sell.isSome then 1 else 0)

/-- Total number of trade markers across the aligned output. -/
def totalAnnCount (ps : List AlignedPoint) : ℕ := (ps.map annCount).sum

/-- The fields of a trade the alignment actually reads: action, price,
quantity and timestamp, but not id and not symbol. -/
def tradeKey (t : Trade) : String × ℚ × ℚ × Option ℤ :=
  (t.action, t.price, t.quantity, t.timestamp)

/-- The last trade of `ts` (in processing order) satisfying `p`, projected to
its (price, quantity) pair; the value a repeatedly overwritten slot ends up
holding. -/
def lastSlot (p : Trade → Bool) (ts : List Trade) : Option (ℚ × ℚ) :=
  (ts.reverse.find? p).map fun t => (t.price, t.quantity)

/-- Concrete three-trade list (two BUYs then one SELL, all on day 0) used to
exercise the overwrite semantics. -/
def tradesOvw : List Trade :=
  [⟨"b1", "A", "BUY", 5, 1, some 100⟩, ⟨"b2", "A", "BUY", 6, 2, some 100⟩,
   ⟨"s1", "A", "SELL", 7, 3, some 100⟩]

/-- Concrete trade list with a repeated id, for the key-determinism witness. -/
def tradesKeyA : List Trade :=
  [⟨"a", "AAPL", "BUY", 5, 1, some 0⟩, ⟨"a", "MSFT", "SELL", 6, 2, some 0⟩]

/-- Same action/price/quantity/timestamp fields as `tradesKeyA`, different
ids and symbols. -/
def tradesKeyB : List Trade :=
  [⟨"x", "TSLA", "BUY", 5, 1, some 0⟩, ⟨"y", "TSLA", "SELL", 6, 2, some 0⟩]

/-- Chart layout constant of InteractiveChart.tsx line 24. -/
def marginLeft : ℚ := 60

/-- Chart layout constant of InteractiveChart.tsx line 24. -/
def marginRight : ℚ := 50

/-- Chart layout constant of InteractiveChart.tsx line 24. -/
def marginTop : ℚ := 20

/-- Chart layout constant of InteractiveChart.tsx line 24. -/
def marginBottom : ℚ := 50

/-- Virtual coordinate box width, InteractiveChart.tsx line 25. -/
def viewBoxWidth : ℚ := 700

/-- Virtual coordinate box height, InteractiveChart.tsx line 26. -/
def viewBoxHeight : ℚ := 250

/-- Plot width, InteractiveChart.tsx line 27. -/
def chartWidth : ℚ := viewBoxWidth - marginLeft - marginRight

/-- Plot height, InteractiveChart.tsx line 28. -/
def chartHeight : ℚ := viewBoxHeight - marginTop - marginBottom

/-- Guard of InteractiveChart.tsx line 15: the component renders nothing iff
the history is empty (`!history || history.length === 0`). -/
def rendersChart (history : List ℚ) : Bool := history.length != 0

/-- Index-to-x mapping `getX` of line 30:
`margin.left + (i / (prices.length - 1)) * chartWidth`. `none` stands for the
non-finite JavaScript value (0/0 or i/0) produced when the denominator
`length - 1` is zero. -/
def getX (len : ℕ) (i : ℕ) : Option ℚ :=
  if len ≤ 1 then none
  else some (marginLeft + ((i : ℚ) / ((len : ℚ) - 1)) * chartWidth)

/-- Math.min over the close values (line 19); evaluated only under the
nonempty guard, the default is irrelevant. -/
def minClose (l : List ℚ) : ℚ := (l.min?).getD 0

/-- Math.max over the close values (line 20). -/
def maxClose (l : List ℚ) : ℚ := (l.max?).getD 0

/-- Line 21: `const range = maxPrice - minPrice || 1` — a zero difference is
falsy in JavaScript and is replaced by 1. -/
def closeRange (l : List ℚ) : ℚ :=
  if maxClose l - minClose l = 0 then 1 else maxClose l - minClose l

/-- Price-to-y mapping `getY` of line 31. -/
def getY (l : List ℚ) (price : ℚ) : ℚ :=
  marginTop + chartHeight - ((price - minClose l) / closeRange l) * chartHeight

/-- Line 54: `const yTicks = 5`. -/
def yTicks : ℕ := 5

/-- Tick label of the Y-axis loop, line 132:
`minPrice + (range * i) / yTicks`. -/
def yTickPrice (l : List ℚ) (i : ℕ) : ℚ :=
  minClose l + closeRange l * (i : ℚ) / (yTicks : ℚ)

/-- Tick y position, line 133. -/
def yTickY (i : ℕ) : ℚ :=
  marginTop + chartHeight - ((i : ℚ) / (yTicks : ℚ)) * chartHeight

/-- The rendered Y-axis tick labels: the loop of line 131 runs over
`Array.from({ length: yTicks + 1 })`, producing yTicks + 1 ticks. -/
def yTickPrices (l : List ℚ) : List ℚ :=
  (List.range (yTicks + 1)).map (yTickPrice l)

/-- Line 35: `prices[prices.length - 1] >= prices[0]`; evaluated only under
the nonempty guard. -/
def isUp (l : List ℚ) : Bool := decide ((l.getLast?).getD 0 ≥ (l.head?).getD 0)

/-- Math.round: round half toward positive infinity. -/
def jsRound (q : ℚ) : ℤ := ⌊q + 1 / 2⌋

/-- Pointer-to-index resolver `getIndexFromPosition` of lines 57-73. `x` is
the pointer X relative to the left edge of the rendered element
(`clientX - rect.left`) and `w` the rendered width; the embedding covers
positive widths (a zero `rect.width` would give NaN in JavaScript). -/
def getIndexFromPosition (len : ℕ) (x w : ℚ) : Option ℤ :=
  if x / w * viewBoxWidth < marginLeft ∨
      viewBoxWidth - marginRight < x / w * viewBoxWidth then none
  else some (max 0 (min ((len : ℤ) - 1)
    (jsRound ((x / w * viewBoxWidth - marginLeft) / chartWidth * ((len : ℚ) - 1)))))

theorem dayFloor_dist_lt_iff (a b : ℤ) :
    (dayFloor a - dayFloor b).natAbs < 86400000 ↔ dayFloor a = dayFloor b := by
  unfold dayFloor
  omega

/-- Claim C4 (confirmed): under the calendar-day policy a trade test-matches
a price bucket iff the two parsed instants fall on the same local calendar
day, the day being modelled by its local-midnight epoch `dayFloor`; both
day-floored instants are multiples of 86400000, so the strict distance test
of page.tsx line 125 succeeds exactly on equality. -/
theorem matchesDay_iff_same_day (t : Trade) (item : PriceItem) (a b : ℤ)
    (ht : t.timestamp = some a) (hd : item.date = some b) :
    matchesDay t item = true ↔ dayFloor a = dayFloor b := by
  unfold matchesDay
  rw [ht, hd]
  simp [dayFloor_dist_lt_iff]

theorem matchesDay_iff_same_day_w :
    matchesDay ⟨"t1", "AAPL", "BUY", 5, 1, some 1000⟩ ⟨some 2000, 10⟩ = true :=
  (matchesDay_iff_same_day ⟨"t1", "AAPL", "BUY", 5, 1, some 1000⟩
    ⟨some 2000, 10⟩ 1000 2000 rfl rfl).mpr (by decide)

theorem matchesDay_some_some (t : Trade) (p : PriceItem) (a b : ℤ)
    (ht : t.timestamp = some a) (hd : p.date = some b) :
    matchesDay t p = decide ((dayFloor a - dayFloor b).natAbs < 86400000) := by
  unfold matchesDay
  rw [ht, hd]

theorem matchesDay_none_ts (t : Trade) (p : PriceItem) (ht : t.timestamp = none) :
    matchesDay t p = false := by
  unfold matchesDay
  rw [ht]

theorem matchesDay_none_date (t : Trade) (p : PriceItem) (hd : p.date = none) :
    matchesDay t p = false := by
  unfold matchesDay
  rw [hd]
  cases t.timestamp <;> rfl

theorem alignPoint_of_no_match (trades : List Trade) (item : PriceItem)
    (h : ∀ t ∈ trades, matchesDay t item = false) :
    alignPoint trades item = initPoint item := by
  unfold alignPoint
  have hnil : trades.filter (fun t => matchesDay t item) = [] :=
    List.filter_eq_nil_iff.mpr (fun a ha => by simp [h a ha])
  rw [hnil]
  rfl

/-- Claim C1 counterexample: one price bucket on day 0 and one BUY trade on
day 3. The trade matches no bucket and, the code having no fallback
(page.tsx lines 122-137 only filter and write), it is assigned nowhere: the
aligned output carries 0 trade markers while the trade list has length 1. -/
theorem align_completeness_cx :
    totalAnnCount (align [⟨some 0, 10⟩]
        [⟨"t2", "AAPL", "BUY", 5, 1, some 259200000⟩]) = 0 ∧
    ([⟨"t2", "AAPL", "BUY", 5, 1, some 259200000⟩] : List Trade).length = 1 := by
  exact ⟨by decide, rfl⟩

/-- Claim C1 (amended): alignment has no nearest-neighbor fallback. A trade
that matches no bucket under the day filter is dropped: if every trade of the
list matches no bucket of the series, the aligned output carries no trade
marker at all, so the total marker count can be strictly smaller than the
number of trades. -/
theorem align_unmatched_dropped (prices : List PriceItem) (trades : List Trade)
    (h : ∀ t ∈ trades, ∀ p ∈ prices, matchesDay t p = false) :
    totalAnnCount (align prices trades) = 0 := by
  induction prices with
  | nil => rfl
  | cons p ps ih =>
    have h1 : alignPoint trades p = initPoint p :=
      alignPoint_of_no_match trades p (fun t ht => h t ht p (List.mem_cons_self p ps))
    have h2 : totalAnnCount (align ps trades) = 0 :=
      ih (fun t ht q hq => h t ht q (List.mem_cons_of_mem p hq))
    unfold align totalAnnCount at h2 ⊢
    simp only [List.map_cons, List.sum_cons, h1, h2, Nat.add_zero]
    simp [annCount, initPoint]

theorem align_unmatched_dropped_w :
    totalAnnCount (align [⟨some 0, 10⟩]
      [⟨"t1", "AAPL", "BUY", 5, 1, some 172800000⟩]) = 0 :=
  align_unmatched_dropped [⟨some 0, 10⟩]
    [⟨"t1", "AAPL", "BUY", 5, 1, some 172800000⟩] (by decide)

theorem matchesDay_dayKey (t : Trade) (p : PriceItem) (h : matchesDay t p = true) :
    ∃ a, t.timestamp = some a ∧ p.date.map dayFloor = some (dayFloor a) := by
  cases ht : t.timestamp with
  | none => rw [matchesDay_none_ts t p ht] at h; exact absurd h (by simp)
  | some a =>
    cases hd : p.date with
    | none => rw [matchesDay_none_date t p hd] at h; exact absurd h (by simp)
    | some b =>
      refine ⟨a, rfl, ?_⟩
      rw [matchesDay_some_some t p a b ht hd] at h
      simp only [decide_eq_true_eq] at h
      have heq := (dayFloor_dist_lt_iff a b).mp h
      simp [heq]

/-- Claim C2 counterexample: two price buckets lying on the same calendar day
and a single BUY trade on that day. The code filters the full trade list once
per bucket (page.tsx line 122), so the one trade writes a buy marker into
both aligned points: the trade-to-bucket mapping is not a function. -/
theorem trade_two_buckets_cx :
    (align [⟨some 0, 1⟩, ⟨some 1000, 2⟩]
        [⟨"t3", "AAPL", "BUY", 5, 1, some 500⟩]).map AlignedPoint.buy =
      [some (5, 1), some (5, 1)] := by
  decide

/-- Claim C2 (amended): a trade is written into every bucket whose calendar
day matches it. Only when the day floors of the price records are pairwise
distinct does each trade match at most one bucket, making the trade-to-bucket
assignment a partial function. -/
theorem trade_matches_at_most_one (prices : List PriceItem) (t : Trade)
    (h : prices.Pairwise fun p q => p.date.map dayFloor ≠ q.date.map dayFloor) :
    prices.countP (fun p => matchesDay t p) ≤ 1 := by
  induction prices with
  | nil => simp
  | cons p ps ih =>
    obtain ⟨hp, hps⟩ := List.pairwise_cons.mp h
    rw [List.countP_cons]
    by_cases hm : matchesDay t p = true
    · have h0 : ps.countP (fun q => matchesDay t q) = 0 := by
        rw [List.countP_eq_zero]
        intro q hq hmq
        obtain ⟨a, hta, hpa⟩ := matchesDay_dayKey t p hm
        obtain ⟨a2, hta2, hqa⟩ := matchesDay_dayKey t q hmq
        rw [hta] at hta2
        obtain rfl : a = a2 := by injection hta2
        exact hp q hq (hpa.trans hqa.symm)
      simp [hm, h0]
    · simpa [hm] using ih hps

theorem trade_matches_at_most_one_w :
    ([⟨some 0, 1⟩, ⟨some 86400000, 2⟩] : List PriceItem).countP
      (fun p => matchesDay ⟨"t4", "AAPL", "BUY", 5, 1, some 1000⟩ p) ≤ 1 :=
  trade_matches_at_most_one [⟨some 0, 1⟩, ⟨some 86400000, 2⟩]
    ⟨"t4", "AAPL", "BUY", 5, 1, some 1000⟩ (by decide)

/-- Claim C3 counterexample: a trade with a malformed timestamp (modelled as
`none`, the NaN of a failed `new Date` parse). The alignment call does not
fail: it returns a full aligned output, one point per price record, with the
malformed trade silently matching nothing. No ValidationError exists anywhere
in the code. -/
theorem align_no_validation_cx :
    align [⟨some 0, 10⟩] [⟨"t5", "AAPL", "BUY", 5, 1, none⟩] =
      [⟨some 0, 10, none, none⟩] := by
  decide

/-- Claim C3 (amended): alignment is total and never signals malformed
timestamps. The output always has one point per price record; a trade whose
timestamp fails to parse matches no bucket, so dropping it from the input
leaves the output unchanged; a price record whose date fails to parse still
yields an output point, which no trade can annotate. -/
theorem align_total_malformed_ignored (prices : List PriceItem)
    (trades : List Trade) (t : Trade) (item : PriceItem)
    (ht : t.timestamp = none) (hd : item.date = none) :
    (align prices trades).length = prices.length ∧
    align prices (t :: trades) = align prices trades ∧
    alignPoint trades item = initPoint item := by
  refine ⟨by unfold align; exact List.length_map prices _, ?_, ?_⟩
  · unfold align
    apply List.map_congr_left
    intro p hp
    unfold alignPoint
    rw [List.filter_cons]
    simp [matchesDay_none_ts t p ht]
  · exact alignPoint_of_no_match trades item
      (fun u hu => matchesDay_none_date u item hd)

theorem align_total_malformed_ignored_w :
    (align [⟨some 0, (10 : ℚ)⟩] ([] : List Trade)).length = 1 ∧
    align [⟨some 0, (10 : ℚ)⟩] [⟨"t6", "AAPL", "BUY", 5, 1, none⟩] =
      align [⟨some 0, (10 : ℚ)⟩] [] ∧
    alignPoint ([] : List Trade) ⟨none, (7 : ℚ)⟩ = initPoint ⟨none, (7 : ℚ)⟩ :=
  align_total_malformed_ignored [⟨some 0, 10⟩] []
    ⟨"t6", "AAPL", "BUY", 5, 1, none⟩ ⟨none, 7⟩ rfl rfl

theorem find?_congr {α : Type} {l : List α} {p q : α → Bool}
    (h : ∀ x ∈ l, p x = q x) : l.find? p = l.find? q := by
  induction l with
  | nil => rfl
  | cons x xs ih =>
    have hx := h x (List.mem_cons_self x xs)
    by_cases hp : p x = true
    · rw [List.find?_cons_of_pos xs hp, List.find?_cons_of_pos xs (hx ▸ hp)]
    · rw [List.find?_cons_of_neg xs hp, List.find?_cons_of_neg xs (hx ▸ hp),
        ih (fun y hy => h y (List.mem_cons_of_mem x hy))]

theorem applyTrades_cons (pt : AlignedPoint) (t : Trade) (ts : List Trade) :
    applyTrades pt (t :: ts) = applyTrades (writeTrade pt t) ts := by
  unfold applyTrades
  rw [List.foldl_cons]

theorem applyTrades_buy (ts : List Trade) (pt : AlignedPoint) :
    (applyTrades pt ts).buy =
      (ts.reverse.find? fun u => decide (u.action = "BUY")).elim pt.buy
        (fun u => some (u.price, u.quantity)) := by
  induction ts generalizing pt with
  | nil => rfl
  | cons t ts ih =>
    rw [applyTrades_cons, ih, List.reverse_cons, List.find?_append]
    cases hf : ts.reverse.find? (fun u => decide (u.action = "BUY")) with
    | some u => rw [Option.or_some]; rfl
    | none =>
      rw [Option.none_or]
      by_cases hb : t.action = "BUY"
      · rw [List.find?_cons_of_pos _ (by simp [hb])]
        simp [writeTrade, hb]
      · rw [List.find?_cons_of_neg _ (by simp [hb])]
        simp [writeTrade, hb]

theorem applyTrades_sell (ts : List Trade) (pt : AlignedPoint) :
    (applyTrades pt ts).sell =
      (ts.reverse.find? fun u => !decide (u.action = "BUY")).elim pt.sell
        (fun u => some (u.price, u.quantity)) := by
  induction ts generalizing pt with
  | nil => rfl
  | cons t ts ih =>
    rw [applyTrades_cons, ih, List.reverse_cons, List.find?_append]
    cases hf : ts.reverse.find? (fun u => !decide (u.action = "BUY")) with
    | some u => rw [Option.or_some]; rfl
    | none =>
      rw [Option.none_or]
      by_cases hb : t.action = "BUY"
      · rw [List.find?_cons_of_neg _ (by simp [hb])]
        simp [writeTrade, hb]
      · rw [List.find?_cons_of_pos _ (by simp [hb])]
        simp [writeTrade, hb]

/-- Claim C5 (confirmed): the forEach of page.tsx lines 129-137 overwrites a
slot on every same-action trade, so each aligned point holds at most one buy
and at most one sell pair (the slots are options), each equal to the price
and quantity of the last matching trade of that action in processing order.
The sell slot is written by every non-BUY action; under the hypothesis that
every action is BUY or SELL it is the last SELL trade. -/
theorem align_slot_overwrite (prices : List PriceItem) (trades : List Trade)
    (i : ℕ) (item : PriceItem) (hi : prices[i]? = some item)
    (hact : ∀ t ∈ trades, t.action = "BUY" ∨ t.action = "SELL") :
    (align prices trades)[i]? = some (alignPoint trades item) ∧
    (alignPoint trades item).buy =
      lastSlot (fun u => decide (u.action = "BUY"))
        (trades.filter fun u => matchesDay u item) ∧
    (alignPoint trades item).sell =
      lastSlot (fun u => decide (u.action = "SELL"))
        (trades.filter fun u => matchesDay u item) := by
  refine ⟨?_, ?_, ?_⟩
  · unfold align
    rw [List.getElem?_map, hi]
    rfl
  · unfold alignPoint lastSlot
    rw [applyTrades_buy]
    cases hf : (trades.filter fun u => matchesDay u item).reverse.find?
        (fun u => decide (u.action = "BUY")) <;> rfl
  · unfold alignPoint lastSlot
    rw [applyTrades_sell]
    have hcong : (trades.filter fun u => matchesDay u item).reverse.find?
          (fun u => !decide (u.action = "BUY")) =
        (trades.filter fun u => matchesDay u item).reverse.find?
          (fun u => decide (u.action = "SELL")) := by
      apply find?_congr
      intro x hx
      have hxm : x ∈ trades := (List.mem_filter.mp (List.mem_reverse.mp hx)).1
      rcases hact x hxm with hB | hS
      · rw [hB]; decide
      · rw [hS]; decide
    rw [hcong]
    cases hf : (trades.filter fun u => matchesDay u item).reverse.find?
        (fun u => decide (u.action = "SELL")) <;> rfl

theorem align_slot_overwrite_w :
    (align [⟨some 0, 10⟩] tradesOvw)[0]? =
      some (alignPoint tradesOvw ⟨some 0, 10⟩) ∧
    (alignPoint tradesOvw ⟨some 0, 10⟩).buy =
      lastSlot (fun u => decide (u.action = "BUY"))
        (tradesOvw.filter fun u => matchesDay u ⟨some 0, 10⟩) ∧
    (alignPoint tradesOvw ⟨some 0, 10⟩).sell =
      lastSlot (fun u => decide (u.action = "SELL"))
        (tradesOvw.filter fun u => matchesDay u ⟨some 0, 10⟩) :=
  align_slot_overwrite [⟨some 0, 10⟩] tradesOvw 0 ⟨some 0, 10⟩ rfl (by decide)

theorem tradeKey_fields {t u : Trade} (h : tradeKey t = tradeKey u) :
    t.timestamp = u.timestamp ∧ t.action = u.action ∧ t.price = u.price ∧
      t.quantity = u.quantity := by
  unfold tradeKey at h
  simp only [Prod.mk.injEq] at h
  exact ⟨h.2.2.2, h.1, h.2.1, h.2.2.1⟩

theorem applyTrades_filter_key (ts1 : List Trade) :
    ∀ ts2 : List Trade, ts1.map tradeKey = ts2.map tradeKey →
    ∀ (item : PriceItem) (pt : AlignedPoint),
      applyTrades pt (ts1.filter fun t => matchesDay t item) =
        applyTrades pt (ts2.filter fun t => matchesDay t item) := by
  induction ts1 with
  | nil =>
    intro ts2 h item pt
    cases ts2 with
    | nil => rfl
    | cons u us => simp at h
  | cons t ts ih =>
    intro ts2 h item pt
    cases ts2 with
    | nil => simp at h
    | cons u us =>
      simp only [List.map_cons, List.cons.injEq] at h
      obtain ⟨hk, hr⟩ := h
      obtain ⟨hts, hact, hpr, hq⟩ := tradeKey_fields hk
      have hm : matchesDay t item = matchesDay u item := by
        unfold matchesDay
        rw [hts]
      rw [List.filter_cons, List.filter_cons, hm]
      by_cases hmu : matchesDay u item = true
      · rw [if_pos hmu, if_pos hmu, applyTrades_cons, applyTrades_cons]
        have hw : writeTrade pt t = writeTrade pt u := by
          unfold writeTrade
          rw [hact, hpr, hq]
        rw [hw]
        exact ih us hr item (writeTrade pt u)
      · rw [if_neg hmu, if_neg hmu]
        exact ih us hr item pt

/-- Claim C10 (confirmed): the aligned output depends only on the action,
price, quantity and timestamp of each trade. The aligner never reads id or
symbol and performs no per-id deduplication: two trade lists agreeing
pointwise on those four fields (even with repeated ids) align identically. -/
theorem align_ignores_id_symbol (prices : List PriceItem) (ts1 ts2 : List Trade)
    (h : ts1.map tradeKey = ts2.map tradeKey) :
    align prices ts1 = align prices ts2 := by
  unfold align
  apply List.map_congr_left
  intro p hp
  unfold alignPoint
  exact applyTrades_filter_key ts1 ts2 h p (initPoint p)

theorem align_ignores_id_symbol_w :
    align [⟨some 0, 10⟩] tradesKeyA = align [⟨some 0, 10⟩] tradesKeyB :=
  align_ignores_id_symbol [⟨some 0, 10⟩] tradesKeyA tradesKeyB (by decide)

/-- Claim C6 counterexample: a single-point series is not guarded. Line 15
only returns null for an empty history, so a length-1 series still renders,
while the index-to-x denominator `length - 1` is 0 and the mapping is
non-finite (0/0 in JavaScript, `none` in the model). -/
theorem single_point_renders_cx :
    rendersChart [(10 : ℚ)] = true ∧ getX 1 0 = none := by
  exact ⟨rfl, rfl⟩

/-- Claim C6 (amended): only the empty series disables rendering; a
single-point series still renders although its index-to-x mapping divides by
the zero denominator `length - 1`; the mapping is finite for every series of
length at least 2. -/
theorem render_guard (l : List ℚ) (i : ℕ) :
    (rendersChart l = false ↔ l = []) ∧
    (l.length = 1 → getX l.length i = none) ∧
    (2 ≤ l.length → (getX l.length i).isSome = true) := by
  refine ⟨?_, ?_, ?_⟩
  · unfold rendersChart
    simp [List.length_eq_zero]
  · intro h1
    unfold getX
    rw [h1, if_pos (le_refl 1)]
  · intro h2
    unfold getX
    rw [if_neg (by omega)]
    rfl

theorem render_guard_w :
    rendersChart ([] : List ℚ) = false ∧ getX 1 0 = none ∧
      (getX 2 0).isSome = true :=
  ⟨(render_guard [] 0).1.mpr rfl, (render_guard [10] 0).2.1 rfl,
    (render_guard [10, 20] 0).2.2 (by decide)⟩

/-- Claim C7 counterexample: the Y-axis loop of line 131 runs over
`Array.from({ length: yTicks + 1 })` and so renders 6 tick positions, not 5;
and on the flat series [10, 10, 10] the `|| 1` default of line 21 makes the
top tick label 10 + 1 = 11, outside [min, max] = [10, 10]. -/
theorem yTick_count_cx :
    (yTickPrices [(10 : ℚ), 10, 10]).length = 6 ∧
    yTickPrice [(10 : ℚ), 10, 10] 5 = 11 := by
  constructor
  · rfl
  · have hmin : minClose [(10 : ℚ), 10, 10] = 10 := by
      simp [minClose, List.min?]
    have hmax : maxClose [(10 : ℚ), 10, 10] = 10 := by
      simp [maxClose, List.max?]
    unfold yTickPrice closeRange yTicks
    rw [hmin, hmax]
    norm_num

/-- Claim C7 (amended): the chart renders yTicks + 1 = 6 Y-axis tick labels
`min + range * i / 5` for i = 0..5, with `range = max - min` defaulted to 1
when the series is flat; consecutive labels differ by range / 5, the bottom
label is min, the top label is max when max is distinct from min and min + 1
on a flat series; range is never 0, so no label or position is NaN. -/
theorem yTick_spec (l : List ℚ) (i : ℕ) (_hl : l ≠ []) :
    (yTickPrices l).length = 6 ∧
    closeRange l ≠ 0 ∧
    yTickPrice l (i + 1) - yTickPrice l i = closeRange l / 5 ∧
    yTickPrice l 0 = minClose l ∧
    (minClose l ≠ maxClose l → yTickPrice l 5 = maxClose l) ∧
    (minClose l = maxClose l → yTickPrice l 5 = minClose l + 1) := by
  refine ⟨?_, ?_, ?_, ?_, ?_, ?_⟩
  · unfold yTickPrices yTicks
    simp
  · unfold closeRange
    split
    · exact one_ne_zero
    · assumption
  · unfold yTickPrice yTicks
    push_cast
    ring
  · unfold yTickPrice
    push_cast
    ring
  · intro hne
    unfold yTickPrice closeRange yTicks
    rw [if_neg (fun h0 => hne (by linarith))]
    push_cast
    ring
  · intro heq
    unfold yTickPrice closeRange yTicks
    rw [if_pos (by rw [heq]; ring)]
    push_cast
    ring

theorem yTick_spec_w :
    (yTickPrices [(10 : ℚ), 20]).length = 6 ∧
    yTickPrice [(10 : ℚ), 20] 5 = maxClose [(10 : ℚ), 20] :=
  ⟨(yTick_spec [10, 20] 0 (by decide)).1,
    (yTick_spec [10, 20] 0 (by decide)).2.2.2.2.1
      (by norm_num [minClose, maxClose, List.min?, List.max?, min_def, max_def])⟩

/-- Claim C8 (confirmed): for a series of length at least 2 and a positive
rendered width, the resolver rescales the pointer X into virtual space as
x / w * viewBoxWidth, returns none exactly when the rescaled X lies left of
the left margin or right of viewBoxWidth - marginRight, and otherwise returns
a rounded index clamped into [0, length - 1]. -/
theorem getIndex_spec (len : ℕ) (x w : ℚ) (hlen : 2 ≤ len) (_hw : 0 < w) :
    (getIndexFromPosition len x w = none ↔
      x / w * viewBoxWidth < marginLeft ∨
        viewBoxWidth - marginRight < x / w * viewBoxWidth) ∧
    (∀ j : ℤ, getIndexFromPosition len x w = some j →
      0 ≤ j ∧ j ≤ (len : ℤ) - 1) := by
  constructor
  · by_cases hc : x / w * viewBoxWidth < marginLeft ∨
        viewBoxWidth - marginRight < x / w * viewBoxWidth
    · unfold getIndexFromPosition
      rw [if_pos hc]
      simp [hc]
    · unfold getIndexFromPosition
      rw [if_neg hc]
      simp [hc]
  · intro j hj
    unfold getIndexFromPosition at hj
    by_cases hc : x / w * viewBoxWidth < marginLeft ∨
        viewBoxWidth - marginRight < x / w * viewBoxWidth
    · rw [if_pos hc] at hj
      exact absurd hj (by simp)
    · rw [if_neg hc] at hj
      have hXj := Option.some.inj hj
      constructor
      · rw [← hXj]
        exact le_max_left _ _
      · rw [← hXj]
        refine max_le ?_ (min_le_left _ _)
        omega

theorem getIndex_eval : getIndexFromPosition 2 355 700 = some 1 := by
  unfold getIndexFromPosition jsRound
  rw [if_neg (by norm_num [viewBoxWidth, marginLeft, marginRight])]
  norm_num [viewBoxWidth, marginLeft, marginRight, chartWidth]

theorem getIndex_spec_w :
    (getIndexFromPosition 2 355 700 = none ↔
      (355 : ℚ) / 700 * viewBoxWidth < marginLeft ∨
        viewBoxWidth - marginRight < (355 : ℚ) / 700 * viewBoxWidth) ∧
    (0 ≤ (1 : ℤ) ∧ (1 : ℤ) ≤ ((2 : ℕ) : ℤ) - 1) :=
  ⟨(getIndex_spec 2 355 700 (by norm_num) (by norm_num)).1,
    (getIndex_spec 2 355 700 (by norm_num) (by norm_num)).2 1 getIndex_eval⟩

/-- Claim C9 (confirmed): the trend flag of line 35 is UP iff the last close
is greater than or equal to the first close (>= as tie-break toward UP), and
an all-equal series classifies as UP. -/
theorem trend_spec :
    (∀ (l : List ℚ) (h : l ≠ []), (isUp l = true ↔ l.head h ≤ l.getLast h)) ∧
    (∀ (c : ℚ) (n : ℕ), isUp (List.replicate (n + 1) c) = true) := by
  constructor
  · intro l h
    unfold isUp
    rw [List.head?_eq_head h, List.getLast?_eq_getLast l h]
    simp [ge_iff_le]
  · intro c n
    unfold isUp
    rw [List.head?_replicate, List.getLast?_replicate]
    simp

theorem trend_spec_w :
    isUp (List.replicate 3 (5 : ℚ)) = true ∧ isUp [(1 : ℚ), 2] = true :=
  ⟨trend_spec.2 5 2, (trend_spec.1 [1, 2] (by decide)).mpr (by decide)⟩

end TBot
